import Mathlib

/-!
Shallow embedding of the `create-tiny-store` observable module.

The JavaScript source keeps, per cell, the mutable record
`state = (current, future, queued)`, a `debounceId` for the scheduled
`trigger` callback, and a `Set` of subscribers.  We model JavaScript
values of the declared type `T` as `Option T` (`none` is `undefined`),
model the at-most-one outstanding scheduled `trigger` callback as a
Boolean `timerActive`, and make every effect explicit: operations return
the new cell together with the `console.error` log entries, the list of
subscriber invocations (events), and a flag saying whether an exception
escaped to the caller.
-/

namespace TinyStore

/-- Error values carried by a JavaScript `throw`. -/
abbrev Err := Nat

/-- A subscriber callback: identified by `id` (JavaScript function
identity); `throws` says whether invoking it raises an exception. -/
structure Subscriber where
  id : Nat
  throws : Bool
deriving DecidableEq

/-- One subscriber invocation `subscriber(newValue, oldValue)`. -/
structure Event (T : Type) where
  sub : Subscriber
  newValue : Option T
  oldValue : Option T
deriving DecidableEq

/-- One `console.error` record produced by `readValue` on a throwing
getter: the state passed to the getter and the error. -/
structure LogEntry (T : Type) where
  state : Option T
  err : Err
deriving DecidableEq

/-- The argument of `set` / `createObservable`: a plain value, or a
function of the current state which may throw. -/
inductive Getter (T : Type) where
  | val : Option T → Getter T
  | fn : (Option T → Except Err (Option T)) → Getter T

/-- `readValue(getter, state)`: if `getter` is a function, invoke it with
`state`; a raised exception is caught, logged, and `state` is returned as
the fallback. Otherwise the value is returned directly. -/
def readValue {T : Type} (getter : Getter T) (state : Option T) :
    Option T × List (LogEntry T) :=
  match getter with
  | .val v => (v, [])
  | .fn f =>
    match f state with
    | .ok v => (v, [])
    | .error e => (state, [⟨state, e⟩])

/-- The per-cell mutable state: the `state` record of the source plus the
outstanding-timer flag (for `debounceId` / `enqueue` / `dequeue`) and the
subscriber set, kept as an insertion-ordered duplicate-free list. -/
structure Cell (T : Type) where
  current : Option T
  future : Option T
  queued : Bool
  timerActive : Bool
  subscribers : List Subscriber
deriving DecidableEq

/-- `emit(newValue, oldValue)`: invoke every subscriber in insertion
order; a throwing subscriber is invoked, and its exception aborts the
remaining invocations and propagates (`true` in the second component). -/
def emit {T : Type} (subs : List Subscriber) (newValue oldValue : Option T) :
    List (Event T) × Bool :=
  match subs with
  | [] => ([], false)
  | s :: rest =>
    if s.throws then ([⟨s, newValue, oldValue⟩], true)
    else
      let r := emit rest newValue oldValue
      (⟨s, newValue, oldValue⟩ :: r.1, r.2)

/-- Result of `trigger` / a scheduler tick: the updated cell, the
subscriber invocations, and whether an exception escaped. -/
structure TrigRes (T : Type) where
  cell : Cell T
  events : List (Event T)
  thrown : Bool
deriving DecidableEq

/-- The commit procedure `trigger`: bail out unless `queued`; reset
`queued`; bail out if `current === future`; otherwise commit `future`
into `current` (before emitting, so the state change survives a throwing
subscriber) and emit `(newValue, oldValue)` with `newValue = future` and
`oldValue` the previous `current`. -/
def trigger {T : Type} [DecidableEq T] (c : Cell T) : TrigRes T :=
  if c.queued = false then ⟨c, [], false⟩
  else if c.current = c.future then ⟨{ c with queued := false }, [], false⟩
  else
    ⟨{ c with queued := false, current := c.future },
     (emit c.subscribers c.future c.current).1,
     (emit c.subscribers c.future c.current).2⟩

/-- The scheduled callback firing: if a timer is outstanding it is
consumed and `trigger` runs; otherwise nothing happens. -/
def tick {T : Type} [DecidableEq T] (c : Cell T) : TrigRes T :=
  if c.timerActive then trigger { c with timerActive := false }
  else ⟨c, [], false⟩

/-- `get()`: return `current`. -/
def get {T : Type} (c : Cell T) : Option T := c.current

/-- Result of a `set` call: the updated cell, the log entries, the
subscriber invocations performed inside the call, and whether an
exception escaped to the caller of `set`. -/
structure SetRes (T : Type) where
  cell : Cell T
  log : List (LogEntry T)
  events : List (Event T)
  thrown : Bool
deriving DecidableEq

/-- `set(newValue, immediate)`: resolve `newValue` against `current` into
`future`; if `immediate`, cancel the outstanding scheduled trigger
(`dequeue(debounceId)`), force `queued`, and run `trigger` synchronously;
otherwise, if not already queued, mark `queued` and schedule `trigger`. -/
def set {T : Type} [DecidableEq T] (c : Cell T) (newValue : Getter T)
    (immediate : Bool) : SetRes T :=
  if immediate then
    ⟨(trigger { c with future := (readValue newValue c.current).1, timerActive := false, queued := true }).cell,
     (readValue newValue c.current).2,
     (trigger { c with future := (readValue newValue c.current).1, timerActive := false, queued := true }).events,
     (trigger { c with future := (readValue newValue c.current).1, timerActive := false, queued := true }).thrown⟩
  else if c.queued = false then
    ⟨{ c with future := (readValue newValue c.current).1, queued := true, timerActive := true },
     (readValue newValue c.current).2, [], false⟩
  else
    ⟨{ c with future := (readValue newValue c.current).1 },
     (readValue newValue c.current).2, [], false⟩

/-- `clear()`: drop all subscribers; nothing else changes. -/
def clear {T : Type} (c : Cell T) : Cell T :=
  { c with subscribers := [] }

/-- `unsubscribe(subscriber)`: delete the subscriber from the set. -/
def unsubscribe {T : Type} (c : Cell T) (s : Subscriber) : Cell T :=
  { c with subscribers := c.subscribers.erase s }

/-- `subscribe(subscriber)`: add the subscriber (idempotent, insertion
order) and return the closure `() => unsubscribe(subscriber)`. -/
def subscribe {T : Type} (c : Cell T) (s : Subscriber) :
    Cell T × (Cell T → Cell T) :=
  let c1 : Cell T :=
    { c with subscribers :=
        if s ∈ c.subscribers then c.subscribers else c.subscribers ++ [s] }
  (c1, fun c2 => unsubscribe c2 s)

/-- `createObservable(initialValue)`: resolve the initial value once,
eagerly, with the absent state argument (`undefined`, i.e. `none`), and
build the fresh cell. -/
def createObservable {T : Type} (initialValue : Getter T) :
    Cell T × List (LogEntry T) :=
  let rv := readValue initialValue none
  ({ current := rv.1, future := rv.1, queued := false, timerActive := false,
     subscribers := [] }, rv.2)

/-- The object returned by `createStore`: the observable members (here,
the cell they all close over) spread together with the actions record. -/
structure Store (T : Type) (A : Type) where
  cell : Cell T
  actions : A

/-- `createStore(store, actions)`: create one observable, invoke the
actions factory once with it, and merge both into the store object. -/
def createStore {T A : Type} (store : Getter T) (actions : Cell T → A) :
    Store T A × List (LogEntry T) :=
  let r := createObservable store
  (⟨r.1, actions r.1⟩, r.2)

/-- A sequence of non-immediate `set` calls, in order. -/
def setBatch {T : Type} [DecidableEq T] (c : Cell T) (gs : List (Getter T)) :
    Cell T :=
  gs.foldl (fun acc g => (set acc g false).cell) c

/-- The specified invariant: outside an open batch, no divergence between
the committed and the pending value. -/
def Inv {T : Type} (c : Cell T) : Prop :=
  c.queued = false → c.current = c.future

instance {T : Type} [DecidableEq T] (c : Cell T) : Decidable (Inv c) := by
  unfold Inv; infer_instance

/-! ## Concrete inputs used by witnesses and counterexamples -/

/-- A committed cell holding `0` with two well-behaved subscribers. -/
def cellTwoSubs : Cell Nat :=
  { current := some 0, future := some 0, queued := false,
    timerActive := false, subscribers := [⟨0, false⟩, ⟨1, false⟩] }

/-- Three plain-value writes `1`, `2`, `3`. -/
def writes123 : List (Getter Nat) :=
  [Getter.val (some 1), Getter.val (some 2), Getter.val (some 3)]

/-- A committed cell holding `0` with one well-behaved subscriber. -/
def cellOneSub : Cell Nat :=
  { current := some 0, future := some 0, queued := false,
    timerActive := false, subscribers := [⟨0, false⟩] }

/-- A cell holding `0` with an open non-immediate batch (future `7`,
scheduled trigger outstanding) and one well-behaved subscriber. -/
def cellPendingBatch : Cell Nat :=
  { current := some 0, future := some 7, queued := true,
    timerActive := true, subscribers := [⟨0, false⟩] }

/-- A committed cell holding `0` whose single subscriber throws. -/
def cellThrowingSub : Cell Nat :=
  { current := some 0, future := some 0, queued := false,
    timerActive := false, subscribers := [⟨0, true⟩] }

/-- The state of the README store example: a record with a `count`. -/
structure CountState where
  count : Nat
deriving DecidableEq

/-- The `inc` action of the store example:
`obs.set(s => ({...s, count: s.count + 1}))`, a non-immediate functional
write on the observable the factory received. -/
def incAction (obs : Cell CountState) : SetRes CountState :=
  set obs (Getter.fn fun s => Except.ok (s.map fun st => ⟨st.count + 1⟩)) false

/-- The store of the example: `createStore({count: 0}, obs => ({inc}))`. -/
def countStore : Store CountState (Cell CountState → SetRes CountState) :=
  (createStore (Getter.val (some ⟨0⟩)) (fun _obs => incAction)).1

/-! ## Helper lemmas -/

/-- If no subscriber throws, `emit` invokes every subscriber in order and
no exception escapes. -/
theorem emit_noThrow {T : Type} (subs : List Subscriber)
    (newValue oldValue : Option T) (h : ∀ s ∈ subs, s.throws = false) :
    emit subs newValue oldValue =
      (subs.map fun s => ⟨s, newValue, oldValue⟩, false) := by
  induction subs with
  | nil => rfl
  | cons s rest ih =>
    have hs : s.throws = false := h s (by simp)
    have hr := ih (fun x hx => h x (by simp [hx]))
    simp [emit, hs, hr]

/-- Every event emitted belongs to a subscriber of the list. -/
theorem emit_sub_mem {T : Type} (subs : List Subscriber)
    (newValue oldValue : Option T) (e : Event T)
    (he : e ∈ (emit subs newValue oldValue).1) : e.sub ∈ subs := by
  induction subs with
  | nil => simp [emit] at he
  | cons s rest ih =>
    by_cases hs : s.throws
    · simp [emit, hs] at he
      simp [he]
    · simp [emit, hs] at he
      rcases he with he | he
      · simp [he]
      · exact List.mem_cons_of_mem _ (ih he)

/-- A left fold that ignores the accumulator returns the image of the
last element. -/
theorem foldl_const_last {α β : Type} (f : α → β) :
    ∀ (gs : List α) (h : gs ≠ []) (a : β),
      gs.foldl (fun _ g => f g) a = f (gs.getLast h) := by
  intro gs
  induction gs with
  | nil => intro h; exact absurd rfl h
  | cons g rest ih =>
    intro h a
    cases rest with
    | nil => rfl
    | cons g2 r2 =>
      rw [List.foldl_cons, ih (by simp)]
      congr 1

/-- Once a batch is open (`queued`), further non-immediate writes only
update `future`; the resolved value of the last write wins. -/
theorem setBatch_spec {T : Type} [DecidableEq T] (gs : List (Getter T)) :
    ∀ c : Cell T, c.queued = true →
      setBatch c gs =
        { c with future :=
            gs.foldl (fun _ g => (readValue g c.current).1) c.future } := by
  induction gs with
  | nil => intro c _; rfl
  | cons g rest ih =>
    intro c hq
    have hset : (set c g false).cell =
        { c with future := (readValue g c.current).1 } := by
      simp [set, hq]
    have hstep : setBatch c (g :: rest) = setBatch (set c g false).cell rest := rfl
    rw [hstep, hset, ih _ (by simp [hq])]
    simp [List.foldl_cons]

/-- `trigger` preserves the invariant. -/
theorem trigger_inv {T : Type} [DecidableEq T] (c : Cell T) (h : Inv c) :
    Inv (trigger c).cell := by
  unfold trigger
  split
  · exact h
  · split
    · rename_i hcf
      intro _
      exact hcf
    · intro _
      rfl

/-- `trigger` does not touch the subscriber list or the timer flag. -/
theorem trigger_frame {T : Type} [DecidableEq T] (c : Cell T) :
    (trigger c).cell.subscribers = c.subscribers ∧
    (trigger c).cell.timerActive = c.timerActive ∧
    (trigger c).cell.future = c.future := by
  unfold trigger
  split
  · exact ⟨rfl, rfl, rfl⟩
  · split
    · exact ⟨rfl, rfl, rfl⟩
    · exact ⟨rfl, rfl, rfl⟩

/-- A commit on an already-agreeing cell emits nothing, throws nothing
and leaves `current` unchanged. -/
theorem trigger_noop {T : Type} [DecidableEq T] (c : Cell T)
    (h : c.current = c.future) :
    (trigger c).events = [] ∧ (trigger c).thrown = false ∧
    (trigger c).cell.current = c.current := by
  unfold trigger
  split
  · exact ⟨rfl, rfl, rfl⟩
  · exact ⟨rfl, rfl, rfl⟩

/-- A tick on an already-agreeing cell emits nothing, throws nothing and
leaves `current` unchanged. -/
theorem tick_noop {T : Type} [DecidableEq T] (c : Cell T)
    (h : c.current = c.future) :
    (tick c).events = [] ∧ (tick c).thrown = false ∧
    (tick c).cell.current = c.current := by
  unfold tick
  split
  · exact trigger_noop _ h
  · exact ⟨rfl, rfl, rfl⟩

/-- If no subscriber throws, no exception escapes `trigger`. -/
theorem trigger_noThrow {T : Type} [DecidableEq T] (c : Cell T)
    (hsub : ∀ s ∈ c.subscribers, s.throws = false) :
    (trigger c).thrown = false := by
  unfold trigger
  split
  · rfl
  · split
    · rfl
    · have h := emit_noThrow c.subscribers c.future c.current hsub
      simp [h]

/-- Every event of a `trigger` belongs to a current subscriber. -/
theorem trigger_events_sub {T : Type} [DecidableEq T] (c : Cell T)
    (e : Event T) (he : e ∈ (trigger c).events) : e.sub ∈ c.subscribers := by
  unfold trigger at he
  split at he
  · simp at he
  · split at he
    · simp at he
    · exact emit_sub_mem _ _ _ _ he

/-- Every event of a tick belongs to a current subscriber. -/
theorem tick_events_sub {T : Type} [DecidableEq T] (c : Cell T)
    (e : Event T) (he : e ∈ (tick c).events) : e.sub ∈ c.subscribers := by
  unfold tick at he
  split at he
  · exact trigger_events_sub { c with timerActive := false } e he
  · simp at he

/-- Every event of a `set` call belongs to a current subscriber. -/
theorem set_events_sub {T : Type} [DecidableEq T] (c : Cell T)
    (g : Getter T) (imm : Bool) (e : Event T)
    (he : e ∈ (set c g imm).events) : e.sub ∈ c.subscribers := by
  cases imm with
  | true =>
    have h2 : (set c g true).events =
        (trigger { c with future := (readValue g c.current).1, timerActive := false, queued := true }).events := rfl
    rw [h2] at he
    exact trigger_events_sub
      { c with future := (readValue g c.current).1, timerActive := false, queued := true } e he
  | false =>
    by_cases hq : c.queued = false <;> simp [set, hq] at he

/-- `set` never changes the subscriber list. -/
theorem set_subscribers {T : Type} [DecidableEq T] (c : Cell T)
    (g : Getter T) (imm : Bool) :
    (set c g imm).cell.subscribers = c.subscribers := by
  cases imm with
  | true =>
    have h2 : (set c g true).cell =
        (trigger { c with future := (readValue g c.current).1, timerActive := false, queued := true }).cell := rfl
    rw [h2]
    exact (trigger_frame _).1
  | false =>
    by_cases hq : c.queued = false <;> simp [set, hq]

/-- With no subscribers, `trigger` emits nothing. -/
theorem trigger_events_nil {T : Type} [DecidableEq T] (c : Cell T)
    (h : c.subscribers = []) : (trigger c).events = [] := by
  unfold trigger
  split
  · rfl
  · split
    · rfl
    · simp [h, emit]

/-- With no subscribers, a tick emits nothing. -/
theorem tick_events_nil {T : Type} [DecidableEq T] (c : Cell T)
    (h : c.subscribers = []) : (tick c).events = [] := by
  unfold tick
  split
  · exact trigger_events_nil _ h
  · rfl

/-- Dropping subscribers commutes with the state change of `trigger`. -/
theorem trigger_clear_comm {T : Type} [DecidableEq T] (c : Cell T) :
    (trigger (clear c)).cell = clear (trigger c).cell := by
  by_cases hq : c.queued = false
  · simp [trigger, clear, hq]
  · by_cases hcf : c.current = c.future
    · simp [trigger, clear, hq, hcf]
    · simp [trigger, clear, hq, hcf]

/-- Dropping subscribers commutes with the state change of a tick. -/
theorem tick_clear_comm {T : Type} [DecidableEq T] (c : Cell T) :
    (tick (clear c)).cell = clear (tick c).cell := by
  by_cases htm : c.timerActive
  · have h1 : tick (clear c) = trigger (clear { c with timerActive := false }) := by
      simp [tick, clear, htm]
    have h2 : tick c = trigger { c with timerActive := false } := by
      simp [tick, htm]
    rw [h1, h2]
    exact trigger_clear_comm _
  · simp [tick, clear, htm]

/-- Dropping subscribers commutes with the state change of `set`. -/
theorem set_clear_comm {T : Type} [DecidableEq T] (c : Cell T)
    (g : Getter T) (imm : Bool) :
    (set (clear c) g imm).cell = clear ((set c g imm).cell) := by
  cases imm with
  | true =>
    have h1 : (set (clear c) g true).cell =
        (trigger (clear { c with future := (readValue g c.current).1, timerActive := false, queued := true })).cell := rfl
    have h2 : (set c g true).cell =
        (trigger { c with future := (readValue g c.current).1, timerActive := false, queued := true }).cell := rfl
    rw [h1, h2, trigger_clear_comm]
  | false =>
    by_cases hq : c.queued = false <;> simp [set, clear, hq]

/-! ## Claims -/

/-- C1: starting from a committed cell (no open batch, no outstanding
timer), a sequence of two or more non-immediate `set` calls followed by
the scheduled tick invokes each subscriber exactly once with
`newValue` the resolution of the last write and `oldValue` the original
committed value, provided they differ (`===`); no intermediate resolved
value is ever passed to any subscriber. -/
theorem coalesced_single_commit {T : Type} [DecidableEq T] (c : Cell T)
    (gs : List (Getter T))
    (hq : c.queued = false) (ht : c.timerActive = false)
    (hcf : c.current = c.future)
    (hne : gs ≠ []) (hlen : 2 ≤ gs.length)
    (hnd : c.subscribers.Nodup)
    (hsub : ∀ s ∈ c.subscribers, s.throws = false)
    (hdiff : (readValue (gs.getLast hne) c.current).1 ≠ c.current) :
    (tick (setBatch c gs)).events =
      c.subscribers.map
        (fun s => ⟨s, (readValue (gs.getLast hne) c.current).1, c.current⟩) ∧
    (tick (setBatch c gs)).cell.current =
      (readValue (gs.getLast hne) c.current).1 ∧
    (∀ s ∈ c.subscribers,
      (tick (setBatch c gs)).events.count
        ⟨s, (readValue (gs.getLast hne) c.current).1, c.current⟩ = 1) ∧
    ∀ e ∈ (tick (setBatch c gs)).events,
      e.newValue = (readValue (gs.getLast hne) c.current).1 ∧
      e.oldValue = c.current := by
  cases gs with
  | nil => exact absurd rfl hne
  | cons g1 rest =>
    have hrne : rest ≠ [] := by
      cases rest with
      | nil => simp at hlen
      | cons a b => simp
    have hglast : (g1 :: rest).getLast hne = rest.getLast hrne :=
      List.getLast_cons hrne
    have h1 : (set c g1 false).cell =
        { c with future := (readValue g1 c.current).1, queued := true, timerActive := true } := by
      simp [set, hq]
    have hbatch : setBatch c (g1 :: rest) =
        { c with future := (readValue (rest.getLast hrne) c.current).1, queued := true, timerActive := true } := by
      have hstep : setBatch c (g1 :: rest) =
          setBatch (set c g1 false).cell rest := rfl
      rw [hstep, h1, setBatch_spec rest _ rfl]
      simp [foldl_const_last (fun g => (readValue g c.current).1) rest hrne]
    have hd2 : ¬ (c.current = (readValue (rest.getLast hrne) c.current).1) :=
      fun h => (hglast ▸ hdiff) h.symm
    have hev : (tick (setBatch c (g1 :: rest))).events =
        c.subscribers.map
          (fun s => ⟨s, (readValue (rest.getLast hrne) c.current).1, c.current⟩) := by
      rw [hbatch]
      simp [tick, trigger, hd2, emit_noThrow _ _ _ hsub]
    refine ⟨?_, ?_, ?_, ?_⟩
    · rw [hev, hglast]
    · rw [hbatch, hglast]
      simp [tick, trigger, hd2]
    · intro s hs
      rw [hev, hglast]
      have hinj : Function.Injective
          (fun s : Subscriber =>
            (⟨s, (readValue (rest.getLast hrne) c.current).1, c.current⟩ : Event T)) := by
        intro a b hab
        simpa using hab
      rw [List.count_map_of_injective _ _ hinj]
      exact List.count_eq_one_of_mem hnd hs
    · intro e he
      rw [hev] at he
      simp only [List.mem_map] at he
      obtain ⟨s, _, rfl⟩ := he
      rw [hglast]
      exact ⟨rfl, rfl⟩

/-- Witness for C1: writes `1`, `2`, `3` on a committed `0` with two
subscribers; the tick notifies each subscriber once with `(3, 0)`. -/
theorem coalesced_single_commit_witness :
    (tick (setBatch cellTwoSubs writes123)).events =
      [⟨⟨0, false⟩, some 3, some 0⟩, ⟨⟨1, false⟩, some 3, some 0⟩] ∧
    (tick (setBatch cellTwoSubs writes123)).cell.current = some 3 := by
  have h := coalesced_single_commit cellTwoSubs writes123 rfl rfl rfl
    (by simp [writes123]) (by simp [writes123]) (by decide) (by decide) (by decide)
  exact ⟨by rw [h.1]; rfl, by rw [h.2.1]; rfl⟩

/-- C3: the invariant (`queued = false` implies `current = future`) holds
on the freshly created cell and is preserved by every operation: `get`
(no state change), non-immediate and immediate `set` (any getter,
including a throwing resolver), `trigger`, the scheduled `tick`, `clear`,
`subscribe` and `unsubscribe`. -/
theorem inv_holds_and_preserved {T : Type} [DecidableEq T] (c : Cell T)
    (hInv : Inv c) (g : Getter T) (s : Subscriber) :
    Inv (createObservable g).1 ∧
    Inv (set c g false).cell ∧
    Inv (set c g true).cell ∧
    Inv (trigger c).cell ∧
    Inv (tick c).cell ∧
    Inv (clear c) ∧
    Inv (subscribe c s).1 ∧
    Inv (unsubscribe c s) := by
  refine ⟨?_, ?_, ?_, ?_, ?_, ?_, ?_, ?_⟩
  · intro _
    rfl
  · by_cases hq : c.queued = false
    · simp [set, hq, Inv]
    · simp [set, hq, Inv]
  · have h2 : Inv (T := T)
        { c with future := (readValue g c.current).1, timerActive := false, queued := true } := by
      intro hq
      simp at hq
    have hset : (set c g true).cell =
        (trigger { c with future := (readValue g c.current).1, timerActive := false, queued := true }).cell := rfl
    rw [hset]
    exact trigger_inv _ h2
  · exact trigger_inv c hInv
  · by_cases htm : c.timerActive
    · have htk : (tick c).cell =
          (trigger { c with timerActive := false }).cell := by
        simp [tick, htm]
      rw [htk]
      exact trigger_inv _ hInv
    · have htk : (tick c).cell = c := by simp [tick, htm]
      rw [htk]
      exact hInv
  · exact hInv
  · exact hInv
  · exact hInv

/-- Witness for C3 at a concrete cell. -/
theorem inv_holds_and_preserved_witness :
    Inv (T := Nat)
      { current := some 0, future := some 0, queued := false,
        timerActive := false, subscribers := [⟨0, false⟩] } ∧
    Inv (set (T := Nat)
      { current := some 0, future := some 0, queued := false,
        timerActive := false, subscribers := [⟨0, false⟩] }
      (Getter.val (some 1)) true).cell :=
  ⟨by decide,
    (inv_holds_and_preserved
      { current := some 0, future := some 0, queued := false,
        timerActive := false, subscribers := [⟨0, false⟩] }
      (by decide) (Getter.val (some 1)) ⟨0, false⟩).2.2.1⟩

/-- C2 counterexample: `set(0, immediate=true)` on a cell whose committed
value is already `0` (reference-equal) commits as a no-op: the single
subscriber receives no synchronous notification, contradicting the claim
that every subscriber is notified within the call for every cell state. -/
theorem immediate_write_counterexample :
    (set cellOneSub (Getter.val (some 0)) true).events = [] ∧
    cellOneSub.subscribers = [⟨0, false⟩] := by
  exact ⟨rfl, rfl⟩

/-- C2 (amended): for every cell state, including one with a pending
non-immediate batch, provided the written value is not reference-equal
to the committed value and no subscriber callback throws,
`set(x, immediate=true)` cancels the outstanding scheduled commit,
commits synchronously before returning (so `get()` returns `x`), and
notifies every subscriber synchronously within the call with
`(x, old current)`; the previously pending batch never produces a
second commit (a later tick changes nothing and emits nothing). -/
theorem immediate_write_commits_sync {T : Type} [DecidableEq T]
    (c : Cell T) (x : Option T) (hne : x ≠ c.current)
    (hsub : ∀ s ∈ c.subscribers, s.throws = false) :
    get (set c (Getter.val x) true).cell = x ∧
    (set c (Getter.val x) true).cell.timerActive = false ∧
    (set c (Getter.val x) true).cell.queued = false ∧
    (set c (Getter.val x) true).events =
      c.subscribers.map (fun s => ⟨s, x, c.current⟩) ∧
    tick (set c (Getter.val x) true).cell =
      ⟨(set c (Getter.val x) true).cell, [], false⟩ := by
  have hcur : ¬ (c.current = x) := fun h => hne h.symm
  have htr : trigger { c with future := x, timerActive := false, queued := true } =
      ⟨{ c with future := x, timerActive := false, queued := false, current := x },
        c.subscribers.map (fun s => ⟨s, x, c.current⟩), false⟩ := by
    simp [trigger, hcur, emit_noThrow _ _ _ hsub]
  have hset : set c (Getter.val x) true =
      ⟨(trigger { c with future := x, timerActive := false, queued := true }).cell, [],
       (trigger { c with future := x, timerActive := false, queued := true }).events,
       (trigger { c with future := x, timerActive := false, queued := true }).thrown⟩ := rfl
  rw [hset, htr]
  exact ⟨rfl, rfl, rfl, rfl, by simp [tick]⟩

/-- Witness for C2 (amended) on a cell with a pending non-immediate
batch: the immediate write of `5` commits synchronously, notifies the
subscriber with `(5, 0)`, and the stale batch never re-fires. -/
theorem immediate_write_commits_sync_witness :
    (some 5 ≠ cellPendingBatch.current) ∧
    get (set cellPendingBatch (Getter.val (some 5)) true).cell = some 5 ∧
    (set cellPendingBatch (Getter.val (some 5)) true).events =
      [⟨⟨0, false⟩, some 5, some 0⟩] := by
  have h := immediate_write_commits_sync cellPendingBatch (some 5)
    (by decide) (by decide)
  exact ⟨by decide, h.1, by rw [h.2.2.2.1]; rfl⟩

/-- C4: writing a value reference-equal to the committed current value
and committing — immediately or via the scheduled tick — invokes no
subscriber. -/
theorem noop_write_no_events {T : Type} [DecidableEq T] (c : Cell T)
    (x : Option T) (hx : c.current = x) :
    (set c (Getter.val x) true).events = [] ∧
    (tick (set c (Getter.val x) false).cell).events = [] := by
  constructor
  · have h2 : (set c (Getter.val x) true).events =
        (trigger { c with future := x, timerActive := false, queued := true }).events := rfl
    rw [h2]
    exact (trigger_noop { c with future := x, timerActive := false, queued := true } hx).1
  · by_cases hq : c.queued = false
    · have h2 : (set c (Getter.val x) false).cell =
          { c with future := x, queued := true, timerActive := true } := by
        simp [set, hq, readValue]
      rw [h2]
      exact (tick_noop { c with future := x, queued := true, timerActive := true } hx).1
    · have h2 : (set c (Getter.val x) false).cell = { c with future := x } := by
        simp [set, hq, readValue]
      rw [h2]
      exact (tick_noop { c with future := x } hx).1

/-- Witness for C4: the committed value is `0` and writing `0` again
produces no events, neither immediately nor on the tick. -/
theorem noop_write_no_events_witness :
    cellOneSub.current = some 0 ∧
    (set cellOneSub (Getter.val (some 0)) true).events = [] ∧
    (tick (set cellOneSub (Getter.val (some 0)) false).cell).events = [] := by
  have h := noop_write_no_events cellOneSub (some 0) rfl
  exact ⟨rfl, h.1, h.2⟩

/-- C5: a throwing resolver is caught inside the write — nothing escapes
to the caller of `set`, the failure is logged with the prior state and
the error, `future` falls back to `current` (so the write is
value-preserving: the eventual committed value is the pre-write
`current`, and no subscriber fires), while the scheduling effects of the
write still occur (immediate: synchronous commit consuming the batch;
non-immediate: the batch is queued). -/
theorem resolver_throw_contained {T : Type} [DecidableEq T] (c : Cell T)
    (f : Option T → Except Err (Option T)) (e : Err) (imm : Bool)
    (hf : f c.current = Except.error e) :
    (set c (Getter.fn f) imm).thrown = false ∧
    (set c (Getter.fn f) imm).log = [⟨c.current, e⟩] ∧
    (set c (Getter.fn f) imm).cell.future = c.current ∧
    (set c (Getter.fn f) imm).events = [] ∧
    (set c (Getter.fn f) imm).cell.current = c.current ∧
    (tick (set c (Getter.fn f) imm).cell).cell.current = c.current ∧
    (imm = true → (set c (Getter.fn f) imm).cell.queued = false ∧
      (set c (Getter.fn f) imm).cell.timerActive = false) ∧
    (imm = false → (set c (Getter.fn f) imm).cell.queued = true) := by
  have hrv : readValue (Getter.fn f) c.current = (c.current, [⟨c.current, e⟩]) := by
    simp [readValue, hf]
  cases imm with
  | true =>
    have hset : set c (Getter.fn f) true =
        ⟨{ c with future := c.current, timerActive := false, queued := false },
          [⟨c.current, e⟩], [], false⟩ := by
      simp [set, trigger, hrv]
    rw [hset]
    refine ⟨rfl, rfl, rfl, rfl, rfl, ?_, fun _ => ⟨rfl, rfl⟩, fun h => by simp at h⟩
    exact (tick_noop { c with future := c.current, timerActive := false, queued := false } rfl).2.2
  | false =>
    by_cases hq : c.queued = false
    · have hset : set c (Getter.fn f) false =
          ⟨{ c with future := c.current, queued := true, timerActive := true },
            [⟨c.current, e⟩], [], false⟩ := by
        simp [set, hrv, hq]
      rw [hset]
      refine ⟨rfl, rfl, rfl, rfl, rfl, ?_, fun h => by simp at h, fun _ => rfl⟩
      exact (tick_noop { c with future := c.current, queued := true, timerActive := true } rfl).2.2
    · have hq2 : c.queued = true := by
        cases h2 : c.queued with
        | false => exact absurd h2 hq
        | true => rfl
      have hset : set c (Getter.fn f) false =
          ⟨{ c with future := c.current }, [⟨c.current, e⟩], [], false⟩ := by
        simp [set, hrv, hq]
      rw [hset]
      refine ⟨rfl, rfl, rfl, rfl, rfl, ?_, fun h => by simp at h, fun _ => hq2⟩
      exact (tick_noop { c with future := c.current } rfl).2.2

/-- Witness for C5: a resolver that always throws error `7`, written
immediately on a cell holding `0`: no exception escapes, the failure is
logged, and the value is preserved. -/
theorem resolver_throw_contained_witness :
    ((fun _ : Option Nat => (Except.error 7 : Except Err (Option Nat)))
        cellOneSub.current = Except.error 7) ∧
    (set cellOneSub (Getter.fn fun _ => Except.error 7) true).thrown = false ∧
    (set cellOneSub (Getter.fn fun _ => Except.error 7) true).log =
      [⟨some 0, 7⟩] ∧
    (set cellOneSub (Getter.fn fun _ => Except.error 7) true).cell.current =
      some 0 := by
  have h := resolver_throw_contained cellOneSub
    (fun _ => Except.error 7) 7 true rfl
  exact ⟨rfl, h.1, h.2.1, h.2.2.2.2.1⟩

/-- C6 counterexample: a subscriber whose callback throws, on the
immediate path: the exception propagates out of `set` to its caller,
contradicting the claim that `set` never propagates an exception for
every set of subscribers. -/
theorem set_never_throws_counterexample :
    (set cellThrowingSub (Getter.val (some 1)) true).thrown = true := by
  decide

/-- C6 (amended): a call to `set` never propagates an exception to its
caller provided `immediate` is false or no subscriber callback throws;
resolver failures are always caught and observable only via the log.
(A subscriber callback that throws during an immediate `set` does
propagate out of the call.) -/
theorem set_no_throw_unless_immediate_subscriber {T : Type} [DecidableEq T]
    (c : Cell T) (g : Getter T) (imm : Bool)
    (h : imm = false ∨ ∀ s ∈ c.subscribers, s.throws = false) :
    (set c g imm).thrown = false := by
  cases imm with
  | false =>
    by_cases hq : c.queued = false <;> simp [set, hq]
  | true =>
    rcases h with h | hsub
    · exact absurd h (by simp)
    · have h2 : (set c g true).thrown =
          (trigger { c with future := (readValue g c.current).1, timerActive := false, queued := true }).thrown := rfl
      rw [h2]
      exact trigger_noThrow
        { c with future := (readValue g c.current).1, timerActive := false, queued := true } hsub

/-- Witness for C6 (amended): even with a throwing subscriber, a
non-immediate `set` returns without raising. -/
theorem set_no_throw_unless_immediate_subscriber_witness :
    (set cellThrowingSub (Getter.val (some 1)) false).thrown = false :=
  set_no_throw_unless_immediate_subscriber cellThrowingSub
    (Getter.val (some 1)) false (Or.inl rfl)

/-- C7: a subscriber removed by `unsubscribe` — the closure returned by
`subscribe` is exactly such a call — is invoked by no subsequent commit:
not by a later tick, not by a later `set` (either flavor), and not by a
commit whose non-immediate write happened before the removal but whose
tick runs after it. -/
theorem unsubscribed_never_invoked {T : Type} [DecidableEq T] (c : Cell T)
    (s : Subscriber) (hnd : c.subscribers.Nodup) (g : Getter T) (imm : Bool) :
    s ∉ (unsubscribe c s).subscribers ∧
    (subscribe c s).2 = (fun c2 => unsubscribe c2 s) ∧
    (∀ e ∈ (tick (unsubscribe c s)).events, e.sub ≠ s) ∧
    (∀ e ∈ (set (unsubscribe c s) g imm).events, e.sub ≠ s) ∧
    (∀ e ∈ (tick (unsubscribe (set c g false).cell s)).events, e.sub ≠ s) := by
  have herase : ∀ x ∈ c.subscribers.erase s, x ≠ s := by
    intro x hx
    exact ((List.Nodup.mem_erase_iff hnd).1 hx).1
  refine ⟨?_, rfl, ?_, ?_, ?_⟩
  · exact List.Nodup.not_mem_erase hnd
  · intro e he
    exact herase _ (tick_events_sub (unsubscribe c s) e he)
  · intro e he
    exact herase _ (set_events_sub (unsubscribe c s) g imm e he)
  · intro e he
    have hmem : e.sub ∈ ((set c g false).cell.subscribers).erase s :=
      tick_events_sub (unsubscribe (set c g false).cell s) e he
    rw [set_subscribers c g false] at hmem
    exact herase _ hmem

/-- Witness for C7: unsubscribing the only subscriber after a
non-immediate write of `1`; the later tick emits nothing naming it. -/
theorem unsubscribed_never_invoked_witness :
    cellOneSub.subscribers.Nodup ∧
    (⟨0, false⟩ : Subscriber) ∉
      (unsubscribe cellOneSub ⟨0, false⟩).subscribers ∧
    (∀ e ∈ (tick (unsubscribe
        (set cellOneSub (Getter.val (some 1)) false).cell ⟨0, false⟩)).events,
      e.sub ≠ ⟨0, false⟩) := by
  have h := unsubscribed_never_invoked cellOneSub ⟨0, false⟩ (by decide)
    (Getter.val (some 1)) false
  exact ⟨by decide, h.1, h.2.2.2.2⟩

/-- C8: `clear()` empties the subscriber set and changes nothing else —
`current`, `future`, `queued` and the outstanding timer are untouched,
no subsequent commit notifies anyone previously subscribed, `get` is
unchanged, and both the tick and `set` act on the cleared cell exactly
as they would have on the original (so a pending commit still updates
`current` when its tick runs). -/
theorem clear_only_drops_subscribers {T : Type} [DecidableEq T]
    (c : Cell T) (g : Getter T) (imm : Bool) :
    (clear c).current = c.current ∧
    (clear c).future = c.future ∧
    (clear c).queued = c.queued ∧
    (clear c).timerActive = c.timerActive ∧
    (clear c).subscribers = [] ∧
    (tick (clear c)).events = [] ∧
    get (clear c) = get c ∧
    (tick (clear c)).cell = clear (tick c).cell ∧
    (set (clear c) g imm).cell = clear ((set c g imm).cell) :=
  ⟨rfl, rfl, rfl, rfl, rfl, tick_events_nil (clear c) rfl, rfl,
    tick_clear_comm c, set_clear_comm c g imm⟩

/-- C9: `createStore` builds one observable, applies the actions factory
to exactly that observable (its result is the factory image of the very
cell the store exposes), and returns the merge of both; the README
example — `createStore` of `count = 0` with an `inc` action, then
`inc()` and letting the scheduled flush run — yields a committed count
of `1`. -/
theorem store_composition {T A : Type} (g : Getter T) (f : Cell T → A) :
    (createStore g f).1.cell = (createObservable g).1 ∧
    (createStore g f).1.actions = f (createObservable g).1 ∧
    (createStore g f).2 = (createObservable g).2 ∧
    get (tick (incAction countStore.cell).cell).cell = some ⟨1⟩ :=
  ⟨rfl, rfl, rfl, rfl⟩

/-- C10: a throwing zero-argument initializer is caught and logged, and
the cell starts with `current = future = undefined` (the absent `state`
argument of `readValue`), so `get()` returns `undefined`. -/
theorem init_throw_yields_undefined (T : Type) (e : Err) :
    (createObservable (T := T) (Getter.fn fun _ => .error e)).1.current
      = none ∧
    (createObservable (T := T) (Getter.fn fun _ => .error e)).1.future
      = none ∧
    (createObservable (T := T) (Getter.fn fun _ => .error e)).2
      = [⟨none, e⟩] ∧
    get (createObservable (T := T) (Getter.fn fun _ => .error e)).1
      = none :=
  ⟨rfl, rfl, rfl, rfl⟩

end TinyStore
